import Mathlib

/-!
Verification of the hedge lifecycle and reconciliation engine of the
MuditaSai/weather repository.  Every definition below is a shallow
embedding of a function of the Python source (src/strategy.py,
src/monitor.py, src/trade_history.py, src/config.py): prices are cents
modelled as `Int`, temperatures and timestamps as `ℚ`, fallible calls as
`Option`/`Except`.
-/

namespace Weather

/-! ### Configuration constants (src/config.py) -/

/-- `MAX_BUCKET_PRICE = 50` (src/config.py). -/
def MAX_BUCKET_PRICE : Int := 50

/-- `MAX_TOTAL_COST = 100` (src/config.py). -/
def MAX_TOTAL_COST : Int := 100

/-- `MIN_BUCKET_PRICE = 2` (src/config.py). -/
def MIN_BUCKET_PRICE : Int := 2

/-- `REPRICE_INCREMENT = 1` (src/strategy.py). -/
def REPRICE_INCREMENT : Int := 1

/-! ### Hedge discovery (src/strategy.py, find_hedge_opportunity) -/

/-- One raw market row of the venue event snapshot, with the fields
`find_hedge_opportunity` reads: `floor_strike`, `cap_strike`, `yes_ask`,
`yes_bid` (absent prices are already coerced to `0` by the Python code). -/
structure Market where
  ticker : String
  floor : Option ℚ
  cap : Option ℚ
  yesAsk : Int
  yesBid : Int
deriving DecidableEq

/-- A discovery-pass bucket as built by `find_hedge_opportunity`. -/
structure Bucket where
  ticker : String
  floor : Option ℚ
  cap : Option ℚ
  yesAsk : Int
  yesBid : Int
  makerPrice : Int
  midpoint : ℚ
deriving DecidableEq

/-- The maker price computation shared by `find_hedge_opportunity` and
`evaluate_partial_fill`: `min(bid + 1, ask)` when a positive bid exists,
else the ask, clamped to `[1, 99]`. -/
def makerPriceOf (yesBid yesAsk : Int) : Int :=
  let mp := if yesBid > 0 then min (yesBid + 1) yesAsk else yesAsk
  max 1 (min 99 mp)

/-- The per-market body of the bucket-building loop of
`find_hedge_opportunity`: skip markets with no ask, compute the maker
price, skip maker prices below 15 cents, and attach the sort midpoint
(`(floor+cap)/2`, `cap - 0.5` for cap-only rows, `floor + 0.5` for
floor-only rows; rows with neither bound are skipped). -/
def buildBucket (m : Market) : Option Bucket :=
  if m.yesAsk ≤ 0 then none
  else if makerPriceOf m.yesBid m.yesAsk < 15 then none
  else
    match m.floor, m.cap with
    | some f, some c =>
        some ⟨m.ticker, some f, some c, m.yesAsk, m.yesBid,
          makerPriceOf m.yesBid m.yesAsk, (f + c) / 2⟩
    | none, some c =>
        some ⟨m.ticker, none, some c, m.yesAsk, m.yesBid,
          makerPriceOf m.yesBid m.yesAsk, c - 1/2⟩
    | some f, none =>
        some ⟨m.ticker, some f, none, m.yesAsk, m.yesBid,
          makerPriceOf m.yesBid m.yesAsk, f + 1/2⟩
    | none, none => none

/-- Sort order of the bucket list: ascending midpoint (Python
`buckets.sort(key=lambda x: x["midpoint"])`, a stable sort, modelled by
insertion sort which is likewise stable). -/
def bucketLE (a b : Bucket) : Prop := a.midpoint ≤ b.midpoint

instance : DecidableRel bucketLE := fun a b => by
  unfold bucketLE; infer_instance

instance : IsTotal Bucket bucketLE :=
  ⟨fun a b => le_total a.midpoint b.midpoint⟩

instance : IsTrans Bucket bucketLE :=
  ⟨fun _ _ _ h h2 => le_trans h h2⟩

/-- The sorted bucket list built by `find_hedge_opportunity` from the raw
market rows. -/
def discoveryBuckets (markets : List Market) : List Bucket :=
  (markets.filterMap buildBucket).insertionSort bucketLE

/-- Membership test of the forecast in a bucket, in the order the Python
code checks the bound shapes. -/
def containsForecast (b : Bucket) (t : ℚ) : Bool :=
  match b.floor, b.cap with
  | some f, some c => decide (f ≤ t ∧ t < c)
  | none, some c => decide (t < c)
  | some f, none => decide (t ≥ f)
  | none, none => false

/-- Fallback scan of `find_hedge_opportunity`: the first index whose
midpoint is at strictly minimal distance from the forecast. -/
def closestIdx (bs : List Bucket) (t : ℚ) : Option Nat :=
  (bs.enum.foldl
    (fun best p =>
      match best with
      | none => some (p.1, |p.2.midpoint - t|)
      | some (i, d) =>
          if |p.2.midpoint - t| < d then some (p.1, |p.2.midpoint - t|)
          else some (i, d))
    none).map Prod.fst

/-- Index of the bucket containing the forecast, falling back to the
closest-midpoint bucket when none contains it. -/
def forecastBucketIdx (bs : List Bucket) (t : ℚ) : Option Nat :=
  match bs.findIdx? (fun b => containsForecast b t) with
  | some i => some i
  | none => closestIdx bs t

/-- The up-to-two candidate pairs `(below, forecast)` and
`(forecast, above)` around the forecast bucket index. -/
def candidatePairs (bs : List Bucket) (idx : Nat) : List (Bucket × Bucket) :=
  (if 0 < idx then
    match bs.get? (idx - 1), bs.get? idx with
    | some a, some b => [(a, b)]
    | _, _ => []
  else []) ++
  (match bs.get? idx, bs.get? (idx + 1) with
   | some a, some b => [(a, b)]
   | _, _ => [])

/-- A validated candidate pair with its total cost and centering score. -/
structure ValidPair where
  b1 : Bucket
  b2 : Bucket
  totalCost : Int
  coverageScore : ℚ
deriving DecidableEq

/-- The per-pair validation of `find_hedge_opportunity`: both maker
prices within `MAX_BUCKET_PRICE`, sum within `MAX_TOTAL_COST`, and the
coverage score `min(distance_to_low, distance_to_high)` with `-999`/`999`
sentinels for missing bounds. -/
def evalPair (t : ℚ) (p : Bucket × Bucket) : Option ValidPair :=
  if p.1.makerPrice > MAX_BUCKET_PRICE ∨ p.2.makerPrice > MAX_BUCKET_PRICE then
    none
  else if p.1.makerPrice + p.2.makerPrice > MAX_TOTAL_COST then none
  else
    some ⟨p.1, p.2, p.1.makerPrice + p.2.makerPrice,
      min
        (if p.1.floor.getD (-999) ≠ -999 then t - p.1.floor.getD (-999) else 999)
        (if p.2.cap.getD 999 ≠ 999 then p.2.cap.getD 999 - t else 999)⟩

/-- The selection order on valid pairs: Python sorts ascending by the key
`(-coverage_score, total_cost)`. -/
def pairBefore (p q : ValidPair) : Prop :=
  q.coverageScore < p.coverageScore ∨
    (p.coverageScore = q.coverageScore ∧ p.totalCost ≤ q.totalCost)

instance : DecidableRel pairBefore := fun p q => by
  unfold pairBefore; infer_instance

/-- `find_hedge_opportunity(markets, forecast_temp)` (src/strategy.py):
returns the best bracketing pair and its combined maker price, or `none`. -/
def find_hedge_opportunity (markets : List Market) (t : ℚ) :
    Option (Bucket × Bucket × Int) :=
  match forecastBucketIdx (discoveryBuckets markets) t with
  | none => none
  | some idx =>
    match (((candidatePairs (discoveryBuckets markets) idx).filterMap
        (evalPair t)).insertionSort pairBefore).head? with
    | none => none
    | some best => some (best.b1, best.b2, best.totalCost)

/-! ### Lemmas about hedge discovery -/

lemma mem_of_head?_eq {α : Type _} {l : List α} {a : α}
    (h : l.head? = some a) : a ∈ l := by
  cases l with
  | nil => simp at h
  | cons x xs =>
    simp only [List.head?_cons, Option.some.injEq] at h
    simp [h]

lemma buildBucket_makerPrice {m : Market} {b : Bucket}
    (h : buildBucket m = some b) : 15 ≤ b.makerPrice := by
  unfold buildBucket at h
  split at h
  · exact absurd h (by simp)
  · split at h
    · exact absurd h (by simp)
    · split at h <;>
        first
          | (injection h with h; subst h;
             exact (by omega : 15 ≤ makerPriceOf m.yesBid m.yesAsk))
          | (injection h)

lemma discoveryBuckets_makerPrice {markets : List Market} {b : Bucket}
    (h : b ∈ discoveryBuckets markets) : 15 ≤ b.makerPrice := by
  unfold discoveryBuckets at h
  rw [List.mem_insertionSort] at h
  obtain ⟨m, _, hm⟩ := List.mem_filterMap.mp h
  exact buildBucket_makerPrice hm

lemma candidatePairs_mem {bs : List Bucket} {idx : Nat} {p : Bucket × Bucket}
    (h : p ∈ candidatePairs bs idx) : p.1 ∈ bs ∧ p.2 ∈ bs := by
  unfold candidatePairs at h
  rw [List.mem_append] at h
  rcases h with h | h
  · split at h
    · split at h <;> simp_all
      exact ⟨List.getElem?_mem (by assumption), List.getElem?_mem (by assumption)⟩
    · simp at h
  · split at h <;> simp_all
    exact ⟨List.getElem?_mem (by assumption), List.getElem?_mem (by assumption)⟩

lemma evalPair_spec {t : ℚ} {p : Bucket × Bucket} {vp : ValidPair}
    (h : evalPair t p = some vp) :
    vp.b1 = p.1 ∧ vp.b2 = p.2 ∧ vp.b1.makerPrice ≤ MAX_BUCKET_PRICE ∧
    vp.b2.makerPrice ≤ MAX_BUCKET_PRICE ∧
    vp.totalCost = vp.b1.makerPrice + vp.b2.makerPrice ∧
    vp.totalCost ≤ MAX_TOTAL_COST := by
  unfold evalPair at h
  split at h
  · simp at h
  · rename_i hprice
    split at h
    · simp at h
    · rename_i hcost
      push_neg at hprice
      injection h with h
      subst h
      exact ⟨rfl, rfl, hprice.1, hprice.2, rfl,
        (by omega : p.1.makerPrice + p.2.makerPrice ≤ MAX_TOTAL_COST)⟩

/-- C1: every pair returned by `find_hedge_opportunity` has both maker
prices in `[MIN_BUCKET_PRICE, MAX_BUCKET_PRICE]`, their sum within
`MAX_TOTAL_COST`, and the returned total cost equal to that sum. -/
theorem find_hedge_opportunity_price_bounds
    (markets : List Market) (t : ℚ) (b1 b2 : Bucket) (tc : Int)
    (h : find_hedge_opportunity markets t = some (b1, b2, tc)) :
    MIN_BUCKET_PRICE ≤ b1.makerPrice ∧ b1.makerPrice ≤ MAX_BUCKET_PRICE ∧
    MIN_BUCKET_PRICE ≤ b2.makerPrice ∧ b2.makerPrice ≤ MAX_BUCKET_PRICE ∧
    b1.makerPrice + b2.makerPrice ≤ MAX_TOTAL_COST ∧
    tc = b1.makerPrice + b2.makerPrice := by
  unfold find_hedge_opportunity at h
  split at h
  · exact absurd h (by simp)
  · split at h
    · exact absurd h (by simp)
    · rename_i best hbest
      injection h with h
      rw [Prod.mk.injEq, Prod.mk.injEq] at h
      obtain ⟨h1, h2, h3⟩ := h
      have hmem := (List.mem_insertionSort pairBefore).mp (mem_of_head?_eq hbest)
      obtain ⟨p, hp, hep⟩ := List.mem_filterMap.mp hmem
      obtain ⟨e1, e2, e3, e4, e5, e6⟩ := evalPair_spec hep
      obtain ⟨q1, q2⟩ := candidatePairs_mem hp
      have m1 : 15 ≤ best.b1.makerPrice := by
        rw [e1]; exact discoveryBuckets_makerPrice q1
      have m2 : 15 ≤ best.b2.makerPrice := by
        rw [e2]; exact discoveryBuckets_makerPrice q2
      subst h1 h2 h3
      unfold MIN_BUCKET_PRICE
      refine ⟨by omega, e3, by omega, e4, by omega, e5⟩

/-- Concrete markets realizing the worked example of the spec: a
49-50 bucket quoted bid 37 / ask 38 and a 50-or-above bucket quoted
bid 21 / ask 22, forecast 49.7. -/
def mEx1 : Market := ⟨"B", some 49, some 50, 38, 37⟩

def mEx2 : Market := ⟨"T", some 50, none, 22, 21⟩

def bEx1 : Bucket := ⟨"B", some 49, some 50, 38, 37, 38, 99/2⟩

def bEx2 : Bucket := ⟨"T", some 50, none, 22, 21, 22, 50 + 1/2⟩

theorem find_hedge_opportunity_price_bounds_witness :
    find_hedge_opportunity [mEx2, mEx1] (497/10) = some (bEx1, bEx2, 60) ∧
    (MIN_BUCKET_PRICE ≤ bEx1.makerPrice ∧ bEx1.makerPrice ≤ MAX_BUCKET_PRICE ∧
     MIN_BUCKET_PRICE ≤ bEx2.makerPrice ∧ bEx2.makerPrice ≤ MAX_BUCKET_PRICE ∧
     bEx1.makerPrice + bEx2.makerPrice ≤ MAX_TOTAL_COST ∧
     (60 : Int) = bEx1.makerPrice + bEx2.makerPrice) := by
  have h : find_hedge_opportunity [mEx2, mEx1] (497/10) = some (bEx1, bEx2, 60) := by
    norm_num [find_hedge_opportunity, discoveryBuckets, buildBucket, makerPriceOf,
      forecastBucketIdx, containsForecast, candidatePairs, evalPair, pairBefore,
      mEx1, mEx2, bEx1, bEx2, bucketLE, List.insertionSort, List.orderedInsert,
      List.findIdx?, min_def, max_def]
  exact ⟨h, find_hedge_opportunity_price_bounds [mEx2, mEx1] (497/10) bEx1 bEx2 60 h⟩

/-- C9 counterexample: a cap-only ("49 or below") bucket is assigned the
synthetic midpoint `48.5`, half a degree below (inside) its cap, not the
`49.5` that "half a degree outside its one real bound" would give. -/
theorem capOnly_midpoint_counterexample :
    (buildBucket ⟨"T", none, some 49, 30, 20⟩).map Bucket.midpoint
      = some (49 - 1/2) ∧ (49 - 1/2 : ℚ) ≠ 49 + 1/2 := by
  constructor
  · norm_num [buildBucket, makerPriceOf, min_def, max_def]
  · norm_num

/-- C9 (amended): a cap-only bucket gets synthetic midpoint `cap - 0.5`
(half a degree below its cap), a floor-only bucket gets `floor + 0.5`
(half a degree above its floor), and the discovery bucket list is sorted
ascending by midpoint. -/
theorem bucket_synthetic_midpoints_and_sort (m : Market) (b : Bucket)
    (hb : buildBucket m = some b) (markets : List Market) :
    (∀ c : ℚ, m.floor = none → m.cap = some c → b.midpoint = c - 1/2) ∧
    (∀ f : ℚ, m.cap = none → m.floor = some f → b.midpoint = f + 1/2) ∧
    List.Sorted bucketLE (discoveryBuckets markets) := by
  refine ⟨?_, ?_, List.sorted_insertionSort bucketLE _⟩
  · intro c h1 h2
    unfold buildBucket at hb
    split at hb
    · simp at hb
    · split at hb
      · simp at hb
      · rw [h1, h2] at hb
        simp only [Option.some.injEq] at hb
        subst hb
        rfl
  · intro f h1 h2
    unfold buildBucket at hb
    split at hb
    · simp at hb
    · split at hb
      · simp at hb
      · rw [h1, h2] at hb
        simp only [Option.some.injEq] at hb
        subst hb
        rfl

/-- A cap-only market row and the bucket `buildBucket` makes of it. -/
def mCapOnly : Market := ⟨"TC", none, some 49, 30, 20⟩

def bCapOnly : Bucket := ⟨"TC", none, some 49, 30, 20, 21, 49 - 1/2⟩

/-- A floor-only market row and the bucket `buildBucket` makes of it. -/
def mFloorOnly : Market := ⟨"TF", some 56, none, 40, 30⟩

def bFloorOnly : Bucket := ⟨"TF", some 56, none, 40, 30, 31, 56 + 1/2⟩

theorem bucket_synthetic_midpoints_and_sort_witness :
    bCapOnly.midpoint = 49 - 1/2 ∧ bFloorOnly.midpoint = 56 + 1/2 ∧
    List.Sorted bucketLE (discoveryBuckets [mCapOnly, mFloorOnly]) := by
  have h1 := bucket_synthetic_midpoints_and_sort mCapOnly bCapOnly
    (by norm_num [buildBucket, makerPriceOf, mCapOnly, bCapOnly, min_def, max_def])
    [mCapOnly, mFloorOnly]
  have h2 := bucket_synthetic_midpoints_and_sort mFloorOnly bFloorOnly
    (by norm_num [buildBucket, makerPriceOf, mFloorOnly, bFloorOnly, min_def, max_def])
    [mCapOnly, mFloorOnly]
  exact ⟨h1.1 49 rfl rfl, h2.2.1 56 rfl rfl, h1.2.2⟩

/-! ### Position tracker (src/monitor.py) -/

/-- Lifecycle status of a tracked Leg.  The source stores these as the
strings `pending`, `partial`, `filled`, `derisk_sold`, `derisk_cancelled`,
`won_sold`, `sold`; the second one is named `partFilled` here because its
source name is a Lean keyword. -/
inductive LegStatus
  | pending
  | partFilled
  | filled
  | derisk_sold
  | derisk_cancelled
  | won_sold
  | sold
deriving DecidableEq

/-- The terminal (frozen) statuses: a leg that was de-risked or sold. -/
def LegStatus.isTerminal : LegStatus → Bool
  | .derisk_sold => true
  | .derisk_cancelled => true
  | .won_sold => true
  | .sold => true
  | _ => false

/-- A tracked position record (one entry of positions.json).  The order
timestamp is `none` when the record has no (or an empty) timestamp and
`some none` when the stored string is non-empty but unparseable (both
`fromisoformat` attempts of `parse_iso_datetime` fail); a parsed time is
minutes on a rational clock. -/
structure Leg where
  ticker : String
  side : String
  limitPrice : Int
  intendedCount : Int
  count : Int
  orderId : Option String
  timestamp : Option (Option ℚ)
  status : LegStatus
  filledTimestamp : Option ℚ
  soldPrice : Option Int
  soldTimestamp : Option ℚ
  cancelledTimestamp : Option ℚ
  pnl : Option Int
deriving DecidableEq

/-- The positions store: an insertion-ordered dictionary keyed by
`ticker_side`. -/
def Store := List (String × Leg)
deriving DecidableEq

/-- The Leg written by `add_pending_order` (src/monitor.py): status
`pending`, `count = 0`, fresh timestamp. -/
def addPendingLeg (ticker side : String) (limitPrice intendedCount : Int)
    (orderId : Option String) (now : ℚ) : Leg :=
  { ticker := ticker, side := side, limitPrice := limitPrice,
    intendedCount := intendedCount, count := 0, orderId := orderId,
    timestamp := some (some now), status := .pending, filledTimestamp := none,
    soldPrice := none, soldTimestamp := none, cancelledTimestamp := none,
    pnl := none }

/-- Dictionary assignment `positions[key] = record`: replace the entry in
place when the key exists, else append. -/
def setKey : Store → String → Leg → Store
  | [], k, v => [(k, v)]
  | p :: rest, k, v => if p.1 = k then (k, v) :: rest else p :: setKey rest k v

/-- Dictionary lookup by key. -/
def lookupKey (s : Store) (k : String) : Option Leg :=
  (s.find? (fun p => p.1 = k)).map Prod.snd

/-- `add_pending_order(ticker, side, limit_price, intended_count, order_id)`
(src/monitor.py): unconditionally writes a fresh pending Leg under the key
`ticker_side`. -/
def add_pending_order (s : Store) (ticker side : String) (lp ic : Int)
    (oid : Option String) (now : ℚ) : Store :=
  setKey s (ticker ++ "_" ++ side) (addPendingLeg ticker side lp ic oid now)

/-- The ticker-to-count map built from the venue holdings list (later
entries win, like Python dict assignment; empty tickers are skipped). -/
def buildPosMap (hs : List (String × Int)) : String → Int :=
  hs.foldl
    (fun m p => if p.1 = "" then m else fun t => if t = p.1 then p.2 else m t)
    (fun _ => 0)

/-- The per-record body of the reconciliation loop of
`reconcile_pending_orders` (src/monitor.py): records whose status is not
`pending`/`partial` are untouched; otherwise the venue count sets status
`pending` (count 0), `partial` (first-seen fill timestamp kept via
setdefault) or `filled` (fill timestamp written on the transition). -/
def reconcileLeg (posMap : String → Int) (now : ℚ) (leg : Leg) : Leg :=
  if leg.status = .pending ∨ leg.status = .partFilled then
    if posMap leg.ticker ≤ 0 then
      { leg with status := .pending, count := 0 }
    else if posMap leg.ticker < leg.intendedCount then
      { leg with
        status := .partFilled
        count := posMap leg.ticker
        filledTimestamp := some (leg.filledTimestamp.getD now) }
    else
      { leg with
        status := .filled
        count := posMap leg.ticker
        filledTimestamp :=
          if leg.status ≠ .filled then some now else leg.filledTimestamp }
  else leg

/-- One reconciliation pass over the whole store with a successfully
fetched holdings snapshot. -/
def reconcileStore (s : Store) (hs : List (String × Int)) (now : ℚ) : Store :=
  s.map fun p => (p.1, reconcileLeg (buildPosMap hs) now p.2)

/-- `reconcile_pending_orders(fetch_positions_fn)` (src/monitor.py).  The
holdings fetch is modelled by its outcome; on a raised fetch error the
source catches the exception, logs it, and returns the tracked positions
unchanged (a normal return). -/
def reconcile_pending_orders (s : Store) (fetchResult : Except Unit (List (String × Int)))
    (now : ℚ) : Except Unit Store :=
  if s = ([] : Store) then Except.ok s
  else
    match fetchResult with
    | .error _ => Except.ok s
    | .ok hs => Except.ok (reconcileStore s hs now)

/-! ### Lemmas about the position tracker -/

lemma reconcileLeg_idem (pm : String → Int) (t1 t2 : ℚ) (leg : Leg) :
    reconcileLeg pm t2 (reconcileLeg pm t1 leg) = reconcileLeg pm t1 leg := by
  unfold reconcileLeg
  split_ifs <;> simp_all

lemma reconcileStore_idem (s : Store) (hs : List (String × Int)) (t1 t2 : ℚ) :
    reconcileStore (reconcileStore s hs t1) hs t2 = reconcileStore s hs t1 := by
  unfold reconcileStore
  rw [List.map_map]
  apply List.map_congr_left
  intro p _
  simp [Function.comp, reconcileLeg_idem]

/-- C4: reconciliation is idempotent — feeding the result of one pass and
the same venue snapshot back into `reconcile_pending_orders` returns that
result unchanged (every Leg's status, count and fill timestamp included). -/
theorem reconcile_pending_orders_idempotent (s : Store)
    (hs : List (String × Int)) (t1 t2 : ℚ) :
    reconcile_pending_orders (reconcileStore s hs t1) (Except.ok hs) t2
      = Except.ok (reconcileStore s hs t1) := by
  unfold reconcile_pending_orders
  split_ifs
  · rfl
  · simp only [reconcileStore_idem]

/-- A concrete partially filled tracked Leg. -/
def legPartialEx : Leg :=
  { ticker := "TK", side := "yes", limitPrice := 38, intendedCount := 2,
    count := 1, orderId := some "o1", timestamp := some (some 0),
    status := .partFilled, filledTimestamp := some 5, soldPrice := none,
    soldTimestamp := none, cancelledTimestamp := none, pnl := none }

/-- C3 counterexample: a Leg in status `partial` IS set back to `pending`
by reconciliation when the venue snapshot reports a zero count for its
ticker, so leg status does regress along `pending → partial → filled`. -/
theorem reconcile_regresses_partial_to_pending :
    legPartialEx.status = LegStatus.partFilled ∧
    (reconcileLeg (buildPosMap []) 9 legPartialEx).status = LegStatus.pending := by
  exact ⟨rfl, rfl⟩

/-- C3 (amended): reconciliation never changes a `filled` or terminal Leg
and never assigns a terminal status (recordIntent creates legs `pending`,
so among the tracker's mutators only the de-risk/sale updates produce a
terminal status); however a `partial` Leg is set back to `pending` when
the venue reports a zero count, so the `pending → partial → filled` order
is not monotone. -/
theorem reconcile_status_safety (pm : String → Int) (now : ℚ) (leg : Leg)
    (tk sd : String) (lp ic : Int) (oid : Option String) (t2 : ℚ) :
    (leg.status = LegStatus.filled ∨ leg.status.isTerminal = true →
      reconcileLeg pm now leg = leg) ∧
    ((reconcileLeg pm now leg).status.isTerminal = true →
      leg.status.isTerminal = true) ∧
    (addPendingLeg tk sd lp ic oid t2).status = LegStatus.pending := by
  refine ⟨?_, ?_, rfl⟩
  · intro h
    have hc : ¬(leg.status = LegStatus.pending ∨ leg.status = LegStatus.partFilled) := by
      rcases h with h | h
      · simp [h]
      · rintro (h2 | h2) <;> rw [h2] at h <;>
          simp [LegStatus.isTerminal] at h
    unfold reconcileLeg
    simp [hc]
  · intro h
    unfold reconcileLeg at h
    split_ifs at h <;>
      first
        | assumption
        | simp [LegStatus.isTerminal] at h

theorem reconcile_status_safety_witness :
    reconcileLeg (buildPosMap []) 9
      { legPartialEx with status := LegStatus.filled }
      = { legPartialEx with status := LegStatus.filled } ∧
    LegStatus.isTerminal
      (reconcileLeg (buildPosMap []) 9 legPartialEx).status = false ∧
    (addPendingLeg "TK" "yes" 30 1 (some "o1") 0).status = LegStatus.pending := by
  have h := reconcile_status_safety (buildPosMap []) 9
    { legPartialEx with status := LegStatus.filled } "TK" "yes" 30 1 (some "o1") 0
  refine ⟨h.1 (Or.inl rfl), ?_, h.2.2⟩
  have h2 := (reconcile_status_safety (buildPosMap []) 9 legPartialEx
    "TK" "yes" 30 1 (some "o1") 0).2.1
  revert h2
  cases (reconcileLeg (buildPosMap []) 9 legPartialEx).status <;> decide

/-- The Leg first recorded for ticker TK, side yes. -/
def legPendingEx : Leg := addPendingLeg "TK" "yes" 30 1 (some "o1") 0

def exStoreC5 : Store := [("TK_yes", legPendingEx)]

/-- C5 counterexample: recording an intent for a key that already holds a
non-terminal Leg does not fail with any duplicate-leg error — the call
returns normally and silently replaces the existing record (here the
limit price moves from 30 to 40), so the existing Leg is not left
unchanged. -/
theorem add_pending_order_overwrites :
    legPendingEx.status.isTerminal = false ∧
    lookupKey (add_pending_order exStoreC5 "TK" "yes" 40 1 (some "o2") 1) "TK_yes"
      = some (addPendingLeg "TK" "yes" 40 1 (some "o2") 1) ∧
    addPendingLeg "TK" "yes" 40 1 (some "o2") 1 ≠ legPendingEx := by
  refine ⟨rfl, by decide, by decide⟩

lemma lookupKey_setKey (s : Store) (k : String) (v : Leg) :
    lookupKey (setKey s k v) k = some v := by
  induction s with
  | nil => simp [setKey, lookupKey]
  | cons p rest ih =>
    by_cases h : p.1 = k
    · simp [setKey, h, lookupKey]
    · simpa [setKey, h, lookupKey, List.find?_cons] using ih

/-- C5 (amended): `add_pending_order` never fails: it always writes a
fresh Leg in status `pending` with `count = 0` under the key
`ticker_side`, replacing any existing record for that key. -/
theorem add_pending_order_spec (s : Store) (ticker side : String)
    (lp ic : Int) (oid : Option String) (now : ℚ) :
    lookupKey (add_pending_order s ticker side lp ic oid now)
        (ticker ++ "_" ++ side)
      = some (addPendingLeg ticker side lp ic oid now) ∧
    (addPendingLeg ticker side lp ic oid now).status = LegStatus.pending ∧
    (addPendingLeg ticker side lp ic oid now).count = 0 :=
  ⟨lookupKey_setKey s (ticker ++ "_" ++ side) (addPendingLeg ticker side lp ic oid now),
    rfl, rfl⟩

/-- C8 counterexample: when the venue holdings fetch raises, reconciliation
returns the unchanged store as a NORMAL result — the exception is caught
and logged inside `reconcile_pending_orders`, not propagated. -/
theorem reconcile_fetch_failure_returns_normally :
    reconcile_pending_orders exStoreC5 (Except.error ()) 3 = Except.ok exStoreC5 ∧
    reconcile_pending_orders exStoreC5 (Except.error ()) 3 ≠ Except.error () := by
  have h : reconcile_pending_orders exStoreC5 (Except.error ()) 3
      = Except.ok exStoreC5 := rfl
  exact ⟨h, by rw [h]; exact fun hh => Except.noConfusion hh⟩

/-- C8 (amended): if the venue holdings query fails, reconciliation leaves
every Leg unchanged and returns normally (it does not propagate the
failure). -/
theorem reconcile_fetch_failure_leaves_store (s : Store) (now : ℚ) :
    reconcile_pending_orders s (Except.error ()) now = Except.ok s := by
  unfold reconcile_pending_orders
  split_ifs <;> rfl

/-! ### Partial-fill policy (src/strategy.py) -/

/-- The decision of one partial-fill evaluation. -/
inductive Action
  | wait
  | reprice
  | derisk
deriving DecidableEq

/-- `get_wait_minutes_for_hours(hours_until_close)` (src/strategy.py):
tier-scaled dwell time in minutes. -/
def get_wait_minutes_for_hours (hours : Option ℚ) : ℚ :=
  match hours with
  | none => 60
  | some h => if h > 12 then 120 else if h > 6 then 60 else if h > 2 then 20 else 0

/-- `get_time_since_order(pos)` (src/strategy.py): minutes elapsed since
the order was placed.  A missing or empty timestamp yields positive
infinity.  A non-empty timestamp that does not parse raises: the fallback
`fromisoformat` inside the `except` block of `parse_iso_datetime`
re-raises `ValueError`, which propagates out of `get_time_since_order`
(its `if not order_time` check is unreachable for non-empty strings);
that uncaught exception is modelled as an error result. -/
def get_time_since_order (now : ℚ) (pos : Leg) : Except Unit (WithTop ℚ) :=
  match pos.timestamp with
  | none => Except.ok ⊤
  | some none => Except.error ()
  | some (some t) => Except.ok ((now - t : ℚ) : WithTop ℚ)

/-- The wait-period gate of `monitor_partial_fills` (src/strategy.py): a
pending leg is deferred without evaluation exactly when its time since
order is below the tier-scaled dwell time; an exception from
`get_time_since_order` propagates (the monitor pass dies). -/
def waitGateDefers (now : ℚ) (pos : Leg) (hoursUntilClose : Option ℚ) :
    Except Unit Bool :=
  (get_time_since_order now pos).map
    (fun m => decide (m < (get_wait_minutes_for_hours hoursUntilClose : WithTop ℚ)))

/-- The delta-based decision of `evaluate_partial_fill` past the
time-based rules (more than six hours to close, or hours unknown). -/
def normalHorizonDecision (newMakerPrice originalLimit filledPrice : Int) :
    Action × Option Int :=
  if newMakerPrice - originalLimit ≤ 0 then (Action.wait, some newMakerPrice)
  else if newMakerPrice - originalLimit = 1 then (Action.reprice, some newMakerPrice)
  else if filledPrice + newMakerPrice ≤ MAX_TOTAL_COST then
    (Action.reprice, some newMakerPrice)
  else (Action.derisk, some newMakerPrice)

/-- The decision core of `evaluate_partial_fill(hedge)` (src/strategy.py),
fed the already-derived hours-to-close, the pending leg's current bid/ask
quote (`none` when `get_market_price` failed), the pending leg's original
limit and the filled leg's limit price.  Returns the action and the
candidate maker price (absent on the cannot-get-prices early return,
whose result carries no price). -/
def evaluate_partial_fill (hoursUntilClose : Option ℚ)
    (currentPrices : Option (Int × Int)) (originalLimit filledPrice : Int) :
    Action × Option Int :=
  match currentPrices with
  | none => (Action.wait, none)
  | some (bid, ask) =>
    match hoursUntilClose with
    | some h =>
      if h < 2 then (Action.derisk, some (makerPriceOf bid ask))
      else if h < 6 then
        if makerPriceOf bid ask ≤ originalLimit + REPRICE_INCREMENT then
          (Action.reprice, some (makerPriceOf bid ask))
        else (Action.derisk, some (makerPriceOf bid ask))
      else normalHorizonDecision (makerPriceOf bid ask) originalLimit filledPrice
    | none => normalHorizonDecision (makerPriceOf bid ask) originalLimit filledPrice

/-- C6: with price data available, under 2 hours to close the decision is
`derisk` for every bid/ask/limit combination; between 2 and 6 hours the
decision is `reprice` to the candidate maker price when it is at most
`REPRICE_INCREMENT` above the original limit, and `derisk` otherwise. -/
theorem close_proximity_rules (h : ℚ) (bid ask originalLimit filledPrice : Int) :
    (h < 2 →
      evaluate_partial_fill (some h) (some (bid, ask)) originalLimit filledPrice
        = (Action.derisk, some (makerPriceOf bid ask))) ∧
    (2 ≤ h → h < 6 →
      evaluate_partial_fill (some h) (some (bid, ask)) originalLimit filledPrice
        = if makerPriceOf bid ask ≤ originalLimit + REPRICE_INCREMENT then
            (Action.reprice, some (makerPriceOf bid ask))
          else (Action.derisk, some (makerPriceOf bid ask))) := by
  constructor
  · intro hlt
    simp [evaluate_partial_fill, hlt]
  · intro hge hlt
    have h2 : ¬h < 2 := not_lt.mpr hge
    simp [evaluate_partial_fill, h2, hlt]

theorem close_proximity_rules_witness :
    evaluate_partial_fill (some 1) (some (35, 37)) 30 40
      = (Action.derisk, some 36) ∧
    evaluate_partial_fill (some 3) (some (31, 37)) 31 40
      = (Action.reprice, some 32) := by
  have h1 := (close_proximity_rules 1 35 37 30 40).1 (by norm_num)
  have h2 := (close_proximity_rules 3 31 37 31 40).2 (by norm_num) (by norm_num)
  rw [h1, h2]
  exact ⟨by decide, by decide⟩

/-- C7: with at least 6 hours to close, the decision follows the delta
between the candidate maker price and the original limit: non-positive →
`wait`; exactly one tick → `reprice`; more than one tick → `reprice` when
the filled leg's price plus the candidate stays within `MAX_TOTAL_COST`,
else `derisk`. -/
theorem normal_horizon_rules (h : ℚ) (hh : 6 ≤ h)
    (bid ask originalLimit filledPrice : Int) :
    (makerPriceOf bid ask - originalLimit ≤ 0 →
      evaluate_partial_fill (some h) (some (bid, ask)) originalLimit filledPrice
        = (Action.wait, some (makerPriceOf bid ask))) ∧
    (makerPriceOf bid ask - originalLimit = 1 →
      evaluate_partial_fill (some h) (some (bid, ask)) originalLimit filledPrice
        = (Action.reprice, some (makerPriceOf bid ask))) ∧
    (1 < makerPriceOf bid ask - originalLimit →
      evaluate_partial_fill (some h) (some (bid, ask)) originalLimit filledPrice
        = if filledPrice + makerPriceOf bid ask ≤ MAX_TOTAL_COST then
            (Action.reprice, some (makerPriceOf bid ask))
          else (Action.derisk, some (makerPriceOf bid ask))) := by
  have h2 : ¬h < 2 := by linarith
  have h6 : ¬h < 6 := by linarith
  refine ⟨?_, ?_, ?_⟩ <;> intro hd <;>
    simp only [evaluate_partial_fill, if_neg h2, if_neg h6, normalHorizonDecision]
  · rw [if_pos hd]
  · rw [if_neg (by omega), if_pos hd]
  · rw [if_neg (by omega), if_neg (by omega)]

theorem normal_horizon_rules_witness :
    (1 : Int) < makerPriceOf 35 37 - 30 ∧
    evaluate_partial_fill (some 8) (some (35, 37)) 30 40
      = (Action.reprice, some 36) := by
  have h := (normal_horizon_rules 8 (by norm_num) 35 37 30 40).2.2 (by decide)
  rw [h]
  exact ⟨by decide, by decide⟩

/-- C10 counterexample: a pending leg with a NON-EMPTY but unparseable
order timestamp does not get an infinite time-since-order: the fallback
parse raises `ValueError`, so `get_time_since_order` errors out (the
monitor pass crashes) instead of treating the wait as infinite and
evaluating the leg immediately. -/
theorem unparseable_timestamp_raises :
    get_time_since_order 100 { legPendingEx with timestamp := some none }
      = Except.error () ∧
    get_time_since_order 100 { legPendingEx with timestamp := some none }
      ≠ Except.ok ⊤ :=
  ⟨rfl, fun h => Except.noConfusion h⟩

/-- C10 (amended): a tracked pending leg with a MISSING (or empty) order
timestamp has infinite time-since-order, so the wait-period gate never
defers it — it is evaluated immediately whatever the dwell tier; a leg
whose non-empty timestamp does not parse instead raises `ValueError` out
of `get_time_since_order`, crashing the monitor pass. -/
theorem missing_timestamp_never_deferred (now : ℚ) (pos : Leg)
    (hours : Option ℚ) :
    (pos.timestamp = none →
      get_time_since_order now pos = Except.ok ⊤ ∧
      waitGateDefers now pos hours = Except.ok false) ∧
    (pos.timestamp = some none →
      get_time_since_order now pos = Except.error ()) := by
  constructor
  · intro h
    have ht : get_time_since_order now pos = Except.ok ⊤ := by
      simp [get_time_since_order, h]
    refine ⟨ht, ?_⟩
    simp [waitGateDefers, ht, Except.map, not_top_lt]
  · intro h
    simp [get_time_since_order, h]

theorem missing_timestamp_never_deferred_witness :
    get_time_since_order 100 { legPendingEx with timestamp := none }
      = Except.ok ⊤ ∧
    waitGateDefers 100 { legPendingEx with timestamp := none } (some 3)
      = Except.ok false ∧
    get_time_since_order 100 { legPendingEx with timestamp := some none }
      = Except.error () := by
  have h1 := missing_timestamp_never_deferred 100
    { legPendingEx with timestamp := none } (some 3)
  have h2 := missing_timestamp_never_deferred 100
    { legPendingEx with timestamp := some none } (some 3)
  exact ⟨(h1.1 rfl).1, (h1.1 rfl).2, h2.2 rfl⟩

/-! ### Trade ledger (src/trade_history.py) -/

/-- One leg snapshot inside a Trade record (the fields the settlement
functions read or write; statuses are the strings of the source). -/
structure TradeLeg where
  key : String
  title : Option String
  orderPrice : Int
  fillPrice : Option Int
  status : Option String
  soldPrice : Option Int
  soldTimestamp : Option ℚ
  cancelledTimestamp : Option ℚ
  pnl : Option Int
deriving DecidableEq

/-- The `exit` block written at settlement; fields absent for a given
outcome stay `none`. -/
structure ExitInfo where
  type : String
  timestamp : ℚ
  soldLeg : Option String
  soldPrice : Option Int
  entryPrice : Option Int
  pnl : Int
deriving DecidableEq

/-- A ledger Trade record (the fields the settlement functions read or
write). -/
structure Trade where
  id : String
  leg1 : TradeLeg
  leg2 : TradeLeg
  totalCost : Int
  outcome : String
  actualTemp : Option ℚ
  winningBucket : Option (Option String)
  pnl : Option Int
  exit : Option ExitInfo
  settledAt : Option ℚ
  updatedAt : Option ℚ
deriving DecidableEq

/-- `leg.get("fill_price") or leg.get("order_price", 0)`: Python `or`
falls through to the order price on a missing or ZERO fill price. -/
def legEntryPrice (leg : TradeLeg) : Int :=
  match leg.fillPrice with
  | some p => if p = 0 then leg.orderPrice else p
  | none => leg.orderPrice

/-- The winning-leg update of `record_win`. -/
def markWonSold (leg : TradeLeg) (soldPrice : Int) (now : ℚ) : TradeLeg :=
  { leg with
    soldPrice := some soldPrice
    soldTimestamp := some now
    status := some "won_sold" }

/-- `record_win(trade_id, winning_leg_key, actual_temp, sold_price)`
(src/trade_history.py) applied to the located trade: `none` when neither
leg key matches (the source returns `False` without changes).  The trade
P&L is `100 - total_cost` whatever `sold_price` was. -/
def applyWin (t : Trade) (winningLegKey : String) (actualTemp : Option ℚ)
    (soldPrice : Int) (now : ℚ) : Option Trade :=
  if t.leg1.key = winningLegKey then
    some { t with
      leg1 := markWonSold t.leg1 soldPrice now
      outcome := "win"
      actualTemp := actualTemp
      winningBucket := some t.leg1.title
      pnl := some (100 - t.totalCost)
      settledAt := some now
      updatedAt := some now
      exit := some ⟨"win", now, none, some soldPrice, none, 100 - t.totalCost⟩ }
  else if t.leg2.key = winningLegKey then
    some { t with
      leg2 := markWonSold t.leg2 soldPrice now
      outcome := "win"
      actualTemp := actualTemp
      winningBucket := some t.leg2.title
      pnl := some (100 - t.totalCost)
      settledAt := some now
      updatedAt := some now
      exit := some ⟨"win", now, none, some soldPrice, none, 100 - t.totalCost⟩ }
  else none

/-- `record_loss(trade_id, actual_temp)` (src/trade_history.py) applied to
the located trade: P&L is `-total_cost`, no leg is touched. -/
def applyLoss (t : Trade) (actualTemp : Option ℚ) (now : ℚ) : Trade :=
  { t with
    outcome := "loss"
    actualTemp := actualTemp
    pnl := some (-t.totalCost)
    settledAt := some now
    updatedAt := some now
    exit := some ⟨"loss", now, none, none, none, -t.totalCost⟩ }

/-- Sold-leg update of `record_derisk`. -/
def markDeriskSold (leg : TradeLeg) (soldPrice pnl : Int) (now : ℚ) : TradeLeg :=
  { leg with
    soldPrice := some soldPrice
    soldTimestamp := some now
    status := some "derisk_sold"
    pnl := some pnl }

/-- Cancelled-leg update of `record_derisk`. -/
def markDeriskCancelled (leg : TradeLeg) (now : ℚ) : TradeLeg :=
  { leg with
    status := some "derisk_cancelled"
    cancelledTimestamp := some now }

/-- `record_derisk(trade_id, sold_leg_key, sold_price, cancelled_leg_key)`
(src/trade_history.py) applied to the located trade: leg1 is the sold leg
when its key matches, otherwise leg2 is (the source `else` takes leg2
regardless of `cancelled_leg_key`); P&L is the sold price minus the sold
leg's entry price. -/
def applyDerisk (t : Trade) (soldLegKey : String) (soldPrice : Int)
    (cancelledLegKey : String) (now : ℚ) : Trade :=
  if t.leg1.key = soldLegKey then
    { t with
      leg1 := markDeriskSold t.leg1 soldPrice (soldPrice - legEntryPrice t.leg1) now
      leg2 := markDeriskCancelled t.leg2 now
      outcome := "derisked"
      pnl := some (soldPrice - legEntryPrice t.leg1)
      settledAt := some now
      updatedAt := some now
      exit := some ⟨"derisk", now, some soldLegKey, some soldPrice,
        some (legEntryPrice t.leg1), soldPrice - legEntryPrice t.leg1⟩ }
  else
    { t with
      leg2 := markDeriskSold t.leg2 soldPrice (soldPrice - legEntryPrice t.leg2) now
      leg1 := markDeriskCancelled t.leg1 now
      outcome := "derisked"
      pnl := some (soldPrice - legEntryPrice t.leg2)
      settledAt := some now
      updatedAt := some now
      exit := some ⟨"derisk", now, some soldLegKey, some soldPrice,
        some (legEntryPrice t.leg2), soldPrice - legEntryPrice t.leg2⟩ }

/-- Locate the first trade with the given id and apply an update to it;
`f` returning `none` (key mismatch) leaves the trade unchanged, matching
the source's `return False` path. -/
def updateFirst (trades : List Trade) (tradeId : String)
    (f : Trade → Option Trade) : List Trade :=
  match trades with
  | [] => []
  | t :: rest =>
    if t.id = tradeId then
      match f t with
      | some t2 => t2 :: rest
      | none => t :: rest
    else t :: updateFirst rest tradeId f

/-- Ledger-level `record_win`. -/
def record_win (trades : List Trade) (tradeId winningLegKey : String)
    (actualTemp : Option ℚ) (soldPrice : Int) (now : ℚ) : List Trade :=
  updateFirst trades tradeId (fun t => applyWin t winningLegKey actualTemp soldPrice now)

/-- Ledger-level `record_loss`. -/
def record_loss (trades : List Trade) (tradeId : String)
    (actualTemp : Option ℚ) (now : ℚ) : List Trade :=
  updateFirst trades tradeId (fun t => some (applyLoss t actualTemp now))

/-- Ledger-level `record_derisk`. -/
def record_derisk (trades : List Trade) (tradeId soldLegKey : String)
    (soldPrice : Int) (cancelledLegKey : String) (now : ℚ) : List Trade :=
  updateFirst trades tradeId
    (fun t => some (applyDerisk t soldLegKey soldPrice cancelledLegKey now))

/-- C2: for every ledger trade, recording a win sets its P&L to `100`
minus the total entry cost for EVERY value of the `sold_price` argument;
recording a loss sets it to the negated total entry cost; recording a
de-risk sets it to the sold price minus the sold leg's entry price. -/
theorem settlement_pnl (t t2 : Trade) (k : String) (temp : Option ℚ)
    (sp : Int) (ck : String) (now : ℚ) :
    (applyWin t k temp sp now = some t2 → t2.pnl = some (100 - t.totalCost)) ∧
    (applyLoss t temp now).pnl = some (-t.totalCost) ∧
    (applyDerisk t k sp ck now).pnl
      = some (sp - legEntryPrice (if t.leg1.key = k then t.leg1 else t.leg2)) := by
  refine ⟨?_, rfl, ?_⟩
  · intro h
    unfold applyWin at h
    split_ifs at h <;>
      first
        | (injection h with h; subst h; rfl)
        | exact Option.noConfusion h
  · unfold applyDerisk
    split_ifs <;> rfl

/-- A settled example hedge: legs bought at 38 and 22 cents. -/
def tlegA : TradeLeg :=
  { key := "A_yes", title := some "49-50", orderPrice := 38,
    fillPrice := some 38, status := some "filled", soldPrice := none,
    soldTimestamp := none, cancelledTimestamp := none, pnl := none }

def tlegB : TradeLeg :=
  { key := "B_yes", title := some "50+", orderPrice := 22,
    fillPrice := some 22, status := some "pending", soldPrice := none,
    soldTimestamp := none, cancelledTimestamp := none, pnl := none }

def tradeEx : Trade :=
  { id := "S_2026-01-22", leg1 := tlegA, leg2 := tlegB, totalCost := 60,
    outcome := "open", actualTemp := none, winningBucket := none,
    pnl := none, exit := none, settledAt := none, updatedAt := none }

theorem settlement_pnl_witness :
    (applyWin tradeEx "A_yes" none 99 7).map Trade.pnl = some (some 40) ∧
    (applyWin tradeEx "A_yes" none 1 7).map Trade.pnl = some (some 40) ∧
    (applyLoss tradeEx none 7).pnl = some (-60) ∧
    (applyDerisk tradeEx "A_yes" 45 "B_yes" 7).pnl = some 7 ∧
    (applyDerisk tradeEx "A_yes" 20 "B_yes" 7).pnl = some (-18) := by
  obtain ⟨w99, hw99⟩ : ∃ w, applyWin tradeEx "A_yes" none 99 7 = some w := ⟨_, rfl⟩
  obtain ⟨w1, hw1⟩ : ∃ w, applyWin tradeEx "A_yes" none 1 7 = some w := ⟨_, rfl⟩
  have h99 := (settlement_pnl tradeEx w99 "A_yes" none 99 "B_yes" 7).1 hw99
  have h1 := (settlement_pnl tradeEx w1 "A_yes" none 1 "B_yes" 7).1 hw1
  have hl := (settlement_pnl tradeEx tradeEx "A_yes" none 0 "B_yes" 7).2.1
  have hd45 := (settlement_pnl tradeEx tradeEx "A_yes" none 45 "B_yes" 7).2.2
  have hd20 := (settlement_pnl tradeEx tradeEx "A_yes" none 20 "B_yes" 7).2.2
  refine ⟨?_, ?_, ?_, ?_, ?_⟩
  · rw [hw99]
    show some w99.pnl = some (some 40)
    rw [h99]; decide
  · rw [hw1]
    show some w1.pnl = some (some 40)
    rw [h1]; decide
  · rw [hl]; decide
  · rw [hd45]; decide
  · rw [hd20]; decide

end Weather
